import Mathlib

/-
  Verification development for the Telos EVM RPC translation layer.

  Shallow embedding of the TypeScript source: the error decoder
  (parseRevertReason, parsePanicReason), the opcode table (toOpname),
  the JSON-RPC dispatcher (doRpcMethod, doRpcPayload), block
  reconstruction (reconstructBlockFromReceipts), the log filter engine
  (logFilterMatch, hasTopics, the eth_getLogs handler pipeline) and the
  trace builder (makeTraces, the trace_block handler).

  JavaScript-specific semantics (truthiness, string coercion, NaN
  comparisons, out-of-range indexing yielding undefined) are modelled
  explicitly where the source relies on them; each such spot carries a
  comment. External collaborators (keccak hashing, elasticsearch, the
  ledger RPC client, signature decomposition) enter as parameters: the
  embedded functions receive their answers as arguments.
-/

set_option maxRecDepth 16384

namespace TelosEvm

/-! ## String helpers modelling JavaScript semantics -/

/-- Hex digit value of a character, none when the character is not a hex digit. -/
def hexDigitVal (c : Char) : Option Nat :=
  if '0' ≤ c ∧ c ≤ '9' then some (c.toNat - '0'.toNat)
  else if 'a' ≤ c ∧ c ≤ 'f' then some (c.toNat - 'a'.toNat + 10)
  else if 'A' ≤ c ∧ c ≤ 'F' then some (c.toNat - 'A'.toNat + 10)
  else none

/-- Does the first list start with the second list (character-wise)? -/
def listStartsWith : List Char → List Char → Bool
  | _, [] => true
  | [], _ :: _ => false
  | a :: as, b :: bs => a == b && listStartsWith as bs

/-- Does the first list contain the second as a contiguous run?
Models JavaScript String.prototype.includes on the character lists. -/
def listHasSub (hay sub : List Char) : Bool :=
  match hay with
  | [] => sub.isEmpty
  | _ :: t => listStartsWith hay sub || listHasSub t sub

/-- JavaScript hay.includes(needle). -/
def strIncludes (hay needle : String) : Bool :=
  listHasSub hay.toList needle.toList

/-- JavaScript s.replace(regex anchored-0x, empty): drop one leading literal 0x. -/
def strip0x (s : String) : String :=
  match s.toList with
  | '0' :: 'x' :: rest => String.mk rest
  | _ => s

/-- Character-wise lower-casing, as JavaScript toLowerCase on hex material. -/
def toLowerStr (s : String) : String :=
  String.mk (s.toList.map Char.toLower)

/-- JavaScript s.replace(anchored repeated 00 pairs, empty): strip leading
zero-byte pairs. -/
def stripZeroBytePairs : List Char → List Char
  | '0' :: '0' :: rest => stripZeroBytePairs rest
  | l => l

/-- JavaScript s.slice(-2): the final two characters (the whole string when
shorter than two characters). -/
def sliceLast2 (s : String) : String :=
  String.mk (s.toList.drop (s.toList.length - 2))

/-- JavaScript String.prototype.padStart with a single pad character. -/
def padStartList (l : List Char) (w : Nat) (c : Char) : List Char :=
  List.replicate (w - l.length) c ++ l

/-- JavaScript Number.prototype.toString(16) for a natural number:
lowercase hex digits, no leading zeros, the digit 0 for zero. -/
def natToHexStr (n : Nat) : String :=
  String.mk (Nat.toDigits 16 n)

/-- numToHex from the utils module, on the numeric branch. -/
def numToHex (n : Nat) : String :=
  "0x" ++ natToHexStr n

/-! ## Error decoder -/

/-- JavaScript parseInt(two-character string, 16) followed by the
String.fromCharCode coercion: a full two-digit parse yields the byte value,
a one-digit valid head parses just that digit, and a NaN parse (first
character invalid) is coerced by fromCharCode to code point 0. -/
def parseIntHex2 (c1 c2 : Char) : Nat :=
  match hexDigitVal c1, hexDigitVal c2 with
  | some a, some b => 16 * a + b
  | some a, none => a
  | none, _ => 0

/-- parseInt on a single hex character, with the same NaN-to-0 coercion. -/
def parseIntHex1 (c : Char) : Nat :=
  (hexDigitVal c).getD 0

/-- The character-building loop of parseRevertReason: consume the remaining
hex digits two at a time, turning each pair into one character code. -/
def decodeHexPairs : List Char → List Char
  | [] => []
  | [c] => [Char.ofNat (parseIntHex1 c)]
  | c1 :: c2 :: rest => Char.ofNat (parseIntHex2 c1 c2) :: decodeHexPairs rest

/-- parseRevertReason from the source: inputs shorter than 138 hex characters
(this also covers the falsy empty string checked first in the source) yield
the empty reason; otherwise the first 138 characters (0x prefix, 4-byte
selector, two ABI head words) are dropped and the remainder is decoded as
consecutive hex-digit pairs. -/
def parseRevertReason (revertOutput : String) : String :=
  if revertOutput.length < 138 then ""
  else String.mk (decodeHexPairs (revertOutput.toList.drop 138))

/-- The switch statement of parsePanicReason, keyed on the trimmed output. -/
def panicSwitch (trimmedOutput : String) : String :=
  if trimmedOutput = "01" then
    "If you call assert with an argument that evaluates to false."
  else if trimmedOutput = "11" then
    "If an arithmetic operation results in underflow or overflow outside of an unchecked \x7b ... \x7d block."
  else if trimmedOutput = "12" then
    "If you divide or modulo by zero (e.g. 5 / 0 or 23 % 0)."
  else if trimmedOutput = "21" then
    "If you convert a value that is too big or negative into an enum type."
  else if trimmedOutput = "31" then
    "If you call .pop() on an empty array."
  else if trimmedOutput = "32" then
    "If you access an array, bytesN or an array slice at an out-of-bounds or negative index (i.e. x[i] where i >= x.length or i < 0)."
  else if trimmedOutput = "41" then
    "If you allocate too much memory or create an array that is too large."
  else if trimmedOutput = "51" then
    "If you call a zero-initialized variable of internal function type."
  else "Default panic message"

/-- parsePanicReason from the source: slice off the last two characters and
map them through the fixed panic table. -/
def parsePanicReason (revertOutput : String) : String :=
  panicSwitch (sliceLast2 revertOutput)

/-- The eight recognized panic codes of the switch in parsePanicReason. -/
def panicCodes : List String := ["01", "11", "12", "21", "31", "32", "41", "51"]

/-- toOpname from the source. Note the default branch returns the misspelled
string literal present in the source. -/
def toOpname (opcode : String) : String :=
  if opcode = "f0" then "create"
  else if opcode = "f1" then "call"
  else if opcode = "f4" then "delegatecall"
  else if opcode = "f5" then "create2"
  else if opcode = "fa" then "staticcall"
  else if opcode = "ff" then "selfdestruct"
  else "unkown"

/-! ## Data model: indexed receipt documents -/

/-- One raw log entry inside an indexed receipt document. -/
structure RawLog where
  address : String
  data : String
  topics : List String
deriving Repr, DecidableEq

/-- One internal call (itx) of a receipt. Hex-string fields carry no 0x,
exactly as stored in the index. -/
structure InternalCall where
  callType : String
  from_ : String
  to_ : String
  gas : String
  gasUsed : String
  input : String
  output : String
  value : String
  subtraces : Nat
  traceAddress : List Nat
  type : String
deriving Repr, DecidableEq

/-- The raw receipt record of an indexed EVM transaction. Numeric
fields are stored as numbers in the index; hex-string fields carry no 0x.
The bloom bitvector is modelled by its natural-number value (the source
keeps it as a byte buffer and hex-serializes it); an absent bloom is none,
matching the falsy check in the source. -/
structure RawReceipt where
  hash : String
  from_ : String
  to_ : String
  input_data : String
  output : String
  value : Nat
  nonce : Nat
  gas_limit : Nat
  gasused : Nat
  gasusedblock : Nat
  charged_gas_price : Nat
  logsBloom : Option Nat
  block : Nat
  block_hash : String
  trx_index : Nat
  logs : Option (List RawLog)
  itxs : List InternalCall
  errors : Option (List String)
deriving Repr, DecidableEq

/-- A search hit as consumed by reconstructBlockFromReceipts: the timestamp
field holds the epoch seconds the source derives from the indexed ISO
timestamp text. -/
structure ReceiptDoc where
  timestamp : Nat
  raw : RawReceipt
deriving Repr, DecidableEq

/-- A search hit as consumed by the eth_getLogs result loop: the raw record
may be absent (the source guards on it). -/
structure ActionDoc where
  global_sequence : Nat
  raw : Option RawReceipt
deriving Repr, DecidableEq

/-! ## Normalizer (utils module) -/

/-- JavaScript s.replace(plain 0x pattern, empty): remove the first
occurrence of the two-character run 0x anywhere in the string. -/
def removeFirst0x : List Char → List Char
  | [] => []
  | '0' :: 'x' :: rest => rest
  | c :: rest => c :: removeFirst0x rest

/-- toChecksumAddress from the utils module, parameterized by the external
keccak256 hex-digest function. An out-of-range or non-hex hash character
makes the parseInt test NaN in the source, which compares as false; the
getD defaults reproduce that (lower case kept). -/
def toChecksumAddress (keccak : String → String) (address : String) : String :=
  if address = "" then address
  else
    let addr0 := removeFirst0x (toLowerStr address).toList
    let addr := if addr0.length ≠ 40 then padStartList addr0 40 '0' else addr0
    let hash := (keccak (String.mk addr)).toList
    "0x" ++ String.mk (addr.enum.map fun p =>
      if 8 ≤ (hexDigitVal (hash.getD p.1 '0')).getD 0 then p.2.toUpper else p.2)

/-- removeZeroHexFromFilter on a single string: strip one leading 0x, lower
case, and optionally strip leading zero-byte pairs. The empty string is
falsy in the source and returned unchanged. -/
def removeZeroHexStr (f : String) (trimLeftZeros : Bool) : String :=
  if f = "" then f
  else
    let noPre := toLowerStr (strip0x f)
    if trimLeftZeros then String.mk (stripZeroBytePairs noPre.toList) else noPre

/-- removeZeroHexFromFilter on an array of plain strings (log topics). -/
def removeZeroHexStrList (l : List String) (trimLeftZeros : Bool) : List String :=
  l.map (fun s => removeZeroHexStr s trimLeftZeros)

/-- hasTopics from the utils module over a positional filter of null or
string entries. An out-of-range log-topic index is undefined in the source,
which String.includes coerces to the text undefined; the getD default
reproduces that, and the strict-equality branch agrees on every input the
inclusion branch does not already accept. -/
def hasTopics (topics : List String) (topicsFilter : List (Option String)) : Bool :=
  let topicsStripped := removeZeroHexStrList topics true
  let filterStripped := topicsFilter.map (fun t => t.map (fun s => removeZeroHexStr s true))
  let topicsFiltered := filterStripped.enum.map fun p =>
    match p.2 with
    | none => true
    | some topic =>
      let logTopic := topicsStripped.getD p.1 "undefined"
      strIncludes topic logTopic || logTopic == topic
  topicsFiltered.all (fun t => t == true)

/-- An address filter as it reaches logFilterMatch: absent, a single string,
or an array of strings (the JS value may be either shape). -/
inductive JsStrOrList where
  | str (s : String)
  | list (l : List String)
deriving Repr, DecidableEq

/-- JavaScript truthiness of the address filter: undefined and the empty
string are falsy; an array (even empty) is truthy. -/
def addrFilterTruthy : Option JsStrOrList → Bool
  | none => false
  | some (.str s) => s ≠ ""
  | some (.list _) => true

/-- logFilterMatch from the utils module. The topics filter is an optional
array (an empty array is truthy in the source and checked). -/
def logFilterMatch (log : RawLog) (addressFilter : Option JsStrOrList)
    (topicsFilter : Option (List (Option String))) : Bool :=
  let addrOk :=
    if addrFilterTruthy addressFilter then
      let thisAddr := removeZeroHexStr (toLowerStr log.address) true
      match addressFilter with
      | some (.list l) => (removeZeroHexStrList l true).contains thisAddr
      | some (.str s) => thisAddr == removeZeroHexStr s true
      | none => true
    else true
  if !addrOk then false
  else
    match topicsFilter with
    | some tf => hasTopics log.topics tf
    | none => true

/-- makeLogObject from the utils module (forSubscription false, so the
removed field is attached). The result-order index the handler stored on
the log before the call is passed explicitly. -/
structure EthLogObj where
  address : String
  blockHash : String
  blockNumber : String
  data : String
  logIndex : String
  topics : List String
  transactionHash : String
  transactionIndex : String
  removed : Bool
deriving Repr, DecidableEq

def makeLogObject (keccak : String → String) (raw : RawReceipt) (log : RawLog)
    (logIndex : Nat) : EthLogObj :=
  { address := toChecksumAddress keccak ("0x" ++ log.address)
    blockHash := "0x" ++ raw.block_hash
    blockNumber := numToHex raw.block
    data := "0x" ++ log.data
    logIndex := numToHex logIndex
    topics := log.topics.map (fun t => "0x" ++ String.mk (padStartList t.toList 64 '0'))
    transactionHash := raw.hash
    transactionIndex := numToHex raw.trx_index
    removed := false }

/-! ## Trace builder -/

/-- The action part of a Parity-style trace. -/
structure TraceAction where
  callType : String
  from_ : String
  gas : String
  input : String
  to_ : String
  value : String
deriving Repr, DecidableEq

/-- The result part of a Parity-style trace. -/
structure TraceResultPart where
  gasUsed : String
  output : String
deriving Repr, DecidableEq

/-- One trace object. The four linkage fields are attached only in
filter mode (adHoc false), matching the conditional assignments in the
source. -/
structure TraceObj where
  action : TraceAction
  result : TraceResultPart
  subtraces : Nat
  traceAddress : List Nat
  type : String
  error : Option String := none
  blockHash : Option String := none
  blockNumber : Option Nat := none
  transactionHash : Option String := none
  transactionPosition : Option Nat := none
deriving Repr, DecidableEq

/-- makeInitialTrace from the source: the top-level call of a receipt.
The value concatenation coerces the stored number to its decimal text,
as the JavaScript string concatenation does. -/
def makeInitialTrace (keccak : String → String) (receipt : RawReceipt)
    (adHoc : Bool) : TraceObj :=
  let gas := "0x" ++ natToHexStr receipt.gasused
  { action :=
      { callType := "call"
        from_ := toChecksumAddress keccak receipt.from_
        gas := gas
        input := receipt.input_data
        to_ := toChecksumAddress keccak receipt.to_
        value := "0x" ++ Nat.repr receipt.value }
    result := { gasUsed := gas, output := "0x" ++ receipt.output }
    subtraces := receipt.itxs.length
    traceAddress := []
    type := "call"
    error :=
      match receipt.errors with
      | some (e :: _) => some e
      | _ => none
    blockHash := if adHoc then none else some ("0x" ++ receipt.block_hash)
    blockNumber := if adHoc then none else some receipt.block
    transactionHash := if adHoc then none else some receipt.hash
    transactionPosition := if adHoc then none else some receipt.trx_index }

/-- makeTrace from the source: one trace per internal call. -/
def makeTrace (keccak : String → String) (receipt : RawReceipt)
    (itx : InternalCall) (adHoc : Bool) : TraceObj :=
  { action :=
      { callType := toOpname itx.callType
        from_ := toChecksumAddress keccak itx.from_
        gas := "0x" ++ itx.gas
        input := "0x" ++ itx.input
        to_ := toChecksumAddress keccak itx.to_
        value := "0x" ++ itx.value }
    result := { gasUsed := "0x" ++ itx.gasUsed, output := "0x" ++ itx.output }
    subtraces := itx.subtraces
    traceAddress := itx.traceAddress
    type := itx.type
    error := none
    blockHash := if adHoc then none else some ("0x" ++ receipt.block_hash)
    blockNumber := if adHoc then none else some receipt.block
    transactionHash := if adHoc then none else some receipt.hash
    transactionPosition := if adHoc then none else some receipt.trx_index }

/-- The two shapes makeTraces can return: the plain trace list in filter
mode, or the ad-hoc envelope whose stateDiff and vmTrace slots are always
null. -/
inductive TracesResult where
  | filterList (traces : List TraceObj)
  | adHocEnvelope (output : String) (stateDiff : Option Unit)
      (trace : List TraceObj) (vmTrace : Option Unit)
deriving Repr, DecidableEq

/-- makeTraces from the source: the initial trace followed by one trace per
internal call; in ad-hoc mode the list is wrapped in the envelope. -/
def makeTraces (keccak : String → String) (receipt : RawReceipt)
    (adHoc : Bool) : TracesResult :=
  let results := makeInitialTrace keccak receipt adHoc ::
    receipt.itxs.map (fun itx => makeTrace keccak receipt itx adHoc)
  if !adHoc then .filterList results
  else .adHocEnvelope ("0x" ++ receipt.output) none results none

/-- The trace_block handler body after the receipts are fetched and mapped
out of their hits: sort by intra-block transaction position, then loop.
The source calls Array.prototype.concat, which returns a fresh array and
mutates nothing, and discards its result, so the accumulator never grows. -/
def trace_blockHandler (keccak : String → String)
    (receipts : List RawReceipt) : List TraceObj :=
  let sortedReceipts := receipts.mergeSort (fun a b => a.trx_index ≤ b.trx_index)
  sortedReceipts.foldl
    (fun traces receipt =>
      let trxTraces := makeTraces keccak receipt false
      let _discarded :=
        match trxTraces with
        | .filterList l => traces ++ traces ++ l
        | _ => traces ++ traces
      traces)
    []

/-! ## Block reconstruction -/

/-- A full transaction object as emitted in detailed mode. -/
structure EthTx where
  blockHash : Option String
  blockNumber : Option String
  from_ : String
  gas : String
  gasPrice : String
  hash : String
  input : String
  nonce : String
  to_ : String
  transactionIndex : String
  value : String
  v : String
  r : String
  s : String
deriving Repr, DecidableEq

/-- One entry of the transactions list of a reconstructed block. -/
inductive TxEntry where
  | hashOnly (hash : String)
  | full (tx : EthTx)
deriving Repr, DecidableEq

/-- The dynamic fields of a reconstructed block. The static
BLOCK_TEMPLATE fields (difficulty, miner, roots and so on) are constants
independent of the receipts and are omitted. The bloom is carried as its
bitvector value; the source hex-serializes the same value. The hash,
number and timestamp slots start undefined and are first-receipt
assigned, hence the option types (timestamp uses the 0-is-falsy check of
the source). -/
structure EthBlock where
  gasUsed : String
  parentHash : String
  hash : Option String
  logsBloom : Nat
  number : Option String
  timestamp : Nat
  transactions : List TxEntry
deriving Repr, DecidableEq

/-- The longest run of hex digits at the head of a character list. -/
def hexDigitsOf : List Char → List Nat
  | [] => []
  | c :: rest =>
    match hexDigitVal c with
    | some d => d :: hexDigitsOf rest
    | none => []

/-- JavaScript parseInt(s, 16): an optional 0x or 0X head is skipped, the
longest hex-digit run is parsed, and an empty run is NaN (none here). -/
def parseIntHexJs (s : String) : Option Nat :=
  let l :=
    match s.toList with
    | '0' :: 'x' :: rest => rest
    | '0' :: 'X' :: rest => rest
    | l => l
  let ds := hexDigitsOf l
  if ds.isEmpty then none else some (ds.foldl (fun a d => 16 * a + d) 0)

/-- blockHexToHash from the utils module: keccak of the unprefixed block
hex text, with the 0x head reattached. -/
def blockHexToHash (keccak : String → String) (blockHex : String) : String :=
  "0x" ++ keccak (strip0x blockHex)

/-- getParentBlockHash from the utils module: parse the block number back
out of its hex text, subtract one, and hash the resulting text. A NaN
parse or an underflow follows the JS number-to-text coercion. -/
def getParentBlockHash (keccak : String → String) (blockNumberHex : String) : String :=
  let parentBlockHex :=
    match parseIntHexJs blockNumberHex with
    | none => "NaN"
    | some 0 => "-1"
    | some (n + 1) => natToHexStr n
  blockHexToHash keccak parentBlockHex

/-- The loop state of reconstructBlockFromReceipts. -/
structure ReconState where
  blockHash : Option String := none
  blockHex : Option String := none
  gasLimit : Nat := 0
  gasUsedBlock : Nat := 0
  timestamp : Nat := 0
  bloom : Nat := 0
  trxs : List TxEntry := []
deriving Repr, DecidableEq

/-- One iteration of the receipt loop of reconstructBlockFromReceipts.
vrs is the external signature recovery (getVRS): it consults receipt
fields or the signature index and decomposes via the crypto library. -/
def reconStep (keccak : String → String)
    (vrs : ReceiptDoc → String × String × String) (full : Bool)
    (st : ReconState) (receiptDoc : ReceiptDoc) : ReconState :=
  let (v, r, s) := vrs receiptDoc
  let receipt := receiptDoc.raw
  let gasLimit := st.gasLimit + receipt.gas_limit
  let gasUsedBlock :=
    if receipt.gasusedblock > st.gasUsedBlock then receipt.gasusedblock
    else st.gasUsedBlock
  let blockHash :=
    match st.blockHash with
    | none => some ("0x" ++ receipt.block_hash)
    | some h => some h
  let blockHex :=
    match st.blockHex with
    | none => some ("0x" ++ natToHexStr receipt.block)
    | some h => some h
  let timestamp := if st.timestamp = 0 then receiptDoc.timestamp else st.timestamp
  let bloom :=
    match receipt.logsBloom with
    | some b => Nat.lor st.bloom b
    | none => st.bloom
  let trxs :=
    if !full then st.trxs ++ [TxEntry.hashOnly receipt.hash]
    else st.trxs ++ [TxEntry.full
      { blockHash := blockHash
        blockNumber := blockHex
        from_ := toChecksumAddress keccak receipt.from_
        gas := "0x" ++ natToHexStr receipt.gasused
        gasPrice := "0x" ++ natToHexStr receipt.charged_gas_price
        hash := receipt.hash
        input := receipt.input_data
        nonce := "0x" ++ natToHexStr receipt.nonce
        to_ := toChecksumAddress keccak receipt.to_
        transactionIndex := "0x" ++ natToHexStr receipt.trx_index
        value := "0x" ++ natToHexStr receipt.value
        v := v, r := r, s := s }]
  { blockHash := blockHash, blockHex := blockHex, gasLimit := gasLimit
    gasUsedBlock := gasUsedBlock, timestamp := timestamp, bloom := bloom
    trxs := trxs }

/-- reconstructBlockFromReceipts from the source: fold the loop over the
receipt hits and assemble the block from the final state. The parent hash
feeds the possibly-undefined block hex through the keccak-based helper,
as the source does. -/
def reconstructBlockFromReceipts (keccak : String → String)
    (vrs : ReceiptDoc → String × String × String)
    (receipts : List ReceiptDoc) (full : Bool) : EthBlock :=
  let st := receipts.foldl (reconStep keccak vrs full) {}
  { gasUsed := numToHex st.gasUsedBlock
    parentHash := getParentBlockHash keccak (st.blockHex.getD "undefined")
    hash := st.blockHash
    logsBloom := st.bloom
    number := st.blockHex
    timestamp := st.timestamp
    transactions := st.trxs }

/-! ## JSON-RPC dispatcher -/

/-- Minimal JSON values as they appear in handler results. -/
inductive JsonV where
  | nul
  | str (s : String)
  | num (n : Nat)
deriving Repr, DecidableEq

/-- One inbound JSON-RPC request. The version slot is an optional string;
none models an absent jsonrpc member. -/
structure RpcRequest where
  jsonrpc : Option String := none
  id : Option Nat := none
  method : String := ""
  params : List String := []
deriving Repr, DecidableEq

/-- The error member of a response envelope. -/
structure RpcError where
  code : Int
  message : Option String := none
  data : Option String := none
deriving Repr, DecidableEq

/-- One JSON-RPC response envelope: exactly one of result and error is
populated by every code path of the source. -/
structure RpcEnvelope where
  jsonrpc : String
  id : Option Nat
  result : Option JsonV := none
  error : Option RpcError := none
deriving Repr, DecidableEq

/-- The ways a handler can fail, mirroring the catch clause of
doRpcMethod: a typed TransactionError, a ledger assertion failure (the
source recognizes it by the nested error code 3050003 and reads the first
detail message), or any other exception with an optional message. -/
inductive HandlerErr where
  | txErr (code : Option Int) (errorMessage : String) (data : Option String)
  | chainAssertErr (detailMessage : String)
  | genericErr (message : Option String)
deriving Repr, DecidableEq

/-- A method handler: positional parameters in, a result or a raised
failure out. -/
def Handler : Type := List String → Except HandlerErr JsonV

/-- jsonRPC2Error from the source (the HTTP status mutation on the reply
object is transport-side and outside the envelope). The code argument of
the source is always overwritten by the switch before use. -/
def jsonRPC2Error (type : String) (requestId : Option Nat) (message : String) : RpcEnvelope :=
  let errorCode : Int :=
    if type = "InvalidRequest" then -32600
    else if type = "MethodNotFound" then -32601
    else if type = "ParseError" then -32700
    else if type = "InvalidParams" then -32602
    else if type = "InternalError" then -32603
    else -32603
  { jsonrpc := "2.0", id := requestId
    error := some { code := errorCode, message := some message, data := none } }

/-- The assertion-failure marker the catch clause strips. -/
def eosioAssertionText : String := "assertion failure with message: "

/-- The catch clause of doRpcMethod, turning a raised failure into the
error member. The JS disjunction e.code or 3 treats a zero code as falsy. -/
def catchToError (e : HandlerErr) : RpcError :=
  match e with
  | .txErr code errorMessage data =>
    let c : Int := match code with
      | some c => if c ≠ 0 then c else 3
      | none => 3
    { code := c, message := some errorMessage, data := data }
  | .chainAssertErr detail =>
    let message :=
      if String.startsWith detail eosioAssertionText then
        String.mk (detail.toList.drop eosioAssertionText.length)
      else detail
    { code := 3, message := some message, data := none }
  | .genericErr message => { code := 3, message := message, data := none }

/-- The version normalization at the head of doRpcMethod: the JS falsy
check turns an absent, null or empty version into 2.0. -/
def normalizedVersion (jsonrpc : Option String) : String :=
  match jsonrpc with
  | none => "2.0"
  | some s => if s = "" then "2.0" else s

/-- doRpcMethod from the source over a method registry: version check,
registry lookup, handler run with its own catch, or the method-not-found
envelope. Logging is observability-only and omitted. -/
def doRpcMethod (methods : List (String × Handler)) (req : RpcRequest) : RpcEnvelope :=
  let jsonrpc := normalizedVersion req.jsonrpc
  if jsonrpc ≠ "2.0" then
    jsonRPC2Error "InvalidRequest" req.id "Invalid JSON RPC"
  else
    match methods.find? (fun kv => kv.1 = req.method) with
    | some kv =>
      match kv.2 req.params with
      | .ok result => { jsonrpc := jsonrpc, id := req.id, result := some result }
      | .error e => { jsonrpc := jsonrpc, id := req.id, error := some (catchToError e) }
    | none => jsonRPC2Error "MethodNotFound" req.id ("Invalid method: " ++ req.method)

/-- An inbound payload: one request object or an array of them. -/
inductive RpcPayload where
  | single (req : RpcRequest)
  | batch (reqs : List RpcRequest)
deriving Repr, DecidableEq

/-- The response to a payload, mirroring its shape. -/
inductive RpcPayloadResponse where
  | single (resp : RpcEnvelope)
  | batch (resps : List RpcEnvelope)
deriving Repr, DecidableEq

/-- doRpcPayload from the source: an empty batch returns nothing at all;
a non-empty batch dispatches every entry (the source starts them all and
joins with a promise barrier) and collects the settled envelopes in the
original order; a single object is dispatched directly. -/
def doRpcPayload (methods : List (String × Handler)) :
    RpcPayload → Option RpcPayloadResponse
  | .batch reqs =>
    if reqs.length = 0 then none
    else some (.batch (reqs.map (doRpcMethod methods)))
  | .single req => some (.single (doRpcMethod methods req))

/-- The ledger-independent fragment of the method registry, with the
handlers written exactly as in the source (chainId comes from the plugin
configuration). Handlers that consult the ledger client or the search
backend are external-collaborator bound and enter theorems through the
universally quantified registry instead. -/
def telosPureMethods (chainId : Nat) : List (String × Handler) :=
  [ ("eth_chainId", fun _ => .ok (.str ("0x" ++ natToHexStr chainId)))
  , ("net_version", fun _ => .ok (.str (Nat.repr chainId)))
  , ("eth_getUncleCountByBlockHash", fun _ => .ok (.str "0x0"))
  , ("eth_getUncleCountByBlockNumber", fun _ => .ok (.str "0x0")) ]

/-! ## eth_getLogs handler pipeline -/

/-- JavaScript truthiness of an optional string parameter. -/
def truthyStr : Option String → Bool
  | none => false
  | some s => s ≠ ""

/-- The JS expression value or default-text (the or-else on request
parameters). -/
def jsOrDefault (o : Option String) (dflt : String) : String :=
  if truthyStr o then o.getD "" else dflt

/-- toBlockNumber from the source, with the current indexed head supplied
by the (external) search backend. -/
def toBlockNumber (currentIndexed : Nat) (blockParam : String) : String :=
  if blockParam = "latest" ∨ blockParam = "pending" then numToHex currentIndexed
  else if blockParam = "earliest" then "0x0"
  else blockParam

/-- The filter object of an eth_getLogs request. -/
structure GetLogsParams where
  address : Option JsStrOrList := none
  topics : Option (List (Option String)) := none
  blockHash : Option String := none
  fromBlock : Option String := none
  toBlock : Option String := none
deriving Repr, DecidableEq

/-- The block constraint the query-preparation section of the eth_getLogs
handler produces for the result loop: the stripped hash, or the resolved
numeric endpoints (none models a NaN endpoint). -/
structure LogsQueryPlan where
  blockHash : Option String
  fromBlock : Option Nat
  toBlock : Option Nat
deriving Repr, DecidableEq

/-- The query-preparation section of the eth_getLogs handler, up to and
excluding the search call: a truthy blockHash is stripped of its 0x and
forbids truthy range endpoints (the handler throws there, before any
query); otherwise both endpoints are resolved, defaulting to latest. -/
def ethGetLogsPrepare (currentIndexed : Nat) (params : GetLogsParams) :
    Except String LogsQueryPlan :=
  if truthyStr params.blockHash then
    let bh0 := params.blockHash.getD ""
    let bh := if String.startsWith bh0 "0x" then String.mk (bh0.toList.drop 2) else bh0
    if truthyStr params.fromBlock ∨ truthyStr params.toBlock then
      .error "fromBlock/toBlock are not allowed with blockHash query"
    else .ok { blockHash := some bh, fromBlock := none, toBlock := none }
  else
    let fromB := parseIntHexJs (toBlockNumber currentIndexed (jsOrDefault params.fromBlock "latest"))
    let toB := parseIntHexJs (toBlockNumber currentIndexed (jsOrDefault params.toBlock "latest"))
    .ok { blockHash := none, fromBlock := fromB, toBlock := toB }

/-- The range rejection fromBlock greater-than block of the result loop;
a NaN endpoint compares false in JS. -/
def jsGtNaN : Option Nat → Nat → Bool
  | none, _ => false
  | some a, b => a > b

/-- The range rejection toBlock less-than block of the result loop;
a NaN endpoint compares false in JS. -/
def jsLtNaN : Option Nat → Nat → Bool
  | none, _ => false
  | some a, b => a < b

/-- The per-log keep test of the eth_getLogs result loop: block
containment (hash equality when a hash was given, range otherwise)
followed by logFilterMatch. -/
def getLogsKeep (plan : LogsQueryPlan) (addressFilter : Option JsStrOrList)
    (topicsFilter : Option (List (Option String))) (raw : RawReceipt)
    (log : RawLog) : Bool :=
  let blockOk :=
    match plan.blockHash with
    | none => !(jsGtNaN plan.fromBlock raw.block || jsLtNaN plan.toBlock raw.block)
    | some h => h == raw.block_hash
  blockOk && logFilterMatch log addressFilter topicsFilter

/-- The inner loop of the eth_getLogs result processing over the logs of
one document: every kept log is emitted through makeLogObject with the
running result counter as its index, paired here with the owning
document global sequence number for the ordering statements. -/
def processDocLogs (keccak : String → String) (plan : LogsQueryPlan)
    (addressFilter : Option JsStrOrList)
    (topicsFilter : Option (List (Option String))) (doc : ActionDoc)
    (acc : List (Nat × EthLogObj) × Nat) : List (Nat × EthLogObj) × Nat :=
  match doc.raw with
  | none => acc
  | some raw =>
    match raw.logs with
    | none => acc
    | some logs =>
      logs.foldl
        (fun acc log =>
          if getLogsKeep plan addressFilter topicsFilter raw log then
            (acc.1 ++ [(doc.global_sequence, makeLogObject keccak raw log acc.2)],
             acc.2 + 1)
          else acc)
        acc

/-- The whole result loop of the eth_getLogs handler over the search hits
(which the query asks the backend to sort ascending by global sequence),
carrying the result list and the log counter. -/
def ethGetLogsCore (keccak : String → String) (plan : LogsQueryPlan)
    (addressFilter : Option JsStrOrList)
    (topicsFilter : Option (List (Option String)))
    (hits : List ActionDoc) : List (Nat × EthLogObj) × Nat :=
  hits.foldl (fun acc doc => processDocLogs keccak plan addressFilter topicsFilter doc acc)
    ([], 0)

/-- The value the eth_getLogs handler returns: the emitted log objects in
result order. -/
def ethGetLogsResults (keccak : String → String) (plan : LogsQueryPlan)
    (addressFilter : Option JsStrOrList)
    (topicsFilter : Option (List (Option String)))
    (hits : List ActionDoc) : List EthLogObj :=
  (ethGetLogsCore keccak plan addressFilter topicsFilter hits).1.map Prod.snd

/-! ## Spec-side predicates used only to compare the code against claim
wording (refinement checks) -/

/-- Modelled from the claim wording on topic matching: a non-null filter
topic at position i matches when, after zero-stripping both sides, the
FILTER topic is contained within the LOG topic at that position, or the
two are exactly equal; a null position matches anything; the log matches
when every position matches. Compared against hasTopics, whose inclusion
test runs in the opposite direction. -/
def claimTopicsMatch (topics : List String) (topicsFilter : List (Option String)) : Bool :=
  topicsFilter.enum.all fun p =>
    match p.2 with
    | none => true
    | some t =>
      let ft := removeZeroHexStr t true
      let lt := (removeZeroHexStrList topics true).getD p.1 "undefined"
      strIncludes lt ft || ft == lt

/-- Modelled from the claim wording on eth_getLogs indexing: a
block-relative logIndex means every result log carries the rank it has
among the results of its own block. Compared against the handler, whose
counter runs over the whole result set. -/
def claimBlockRelativeIndexes (results : List EthLogObj) : Bool :=
  results.enum.all fun p =>
    p.2.logIndex ==
      numToHex ((results.take p.1).filter
        (fun q => q.blockNumber == p.2.blockNumber)).length

/-! ## Concrete sample inputs for witnesses and counterexamples -/

/-- A stand-in for the external keccak digest in concrete evaluations;
the claims under test never depend on digest values. -/
def keccak0 : String → String := fun _ => ""

/-- A stand-in for the external signature recovery in concrete
evaluations. -/
def vrs0 : ReceiptDoc → String × String × String := fun _ => ("0x0", "0x0", "0x0")

/-- A well-formed ABI string-revert payload carrying the text
execution failed: selector, offset word, length word, then the data. -/
def revertExecutionFailed : String :=
  "0x08c379a0" ++
  "0000000000000000000000000000000000000000000000000000000000000020" ++
  "0000000000000000000000000000000000000000000000000000000000000010" ++
  "657865637574696f6e206661696c6564"

def sampleReceiptA : RawReceipt :=
  { hash := "0xaa01", from_ := "1111111111111111111111111111111111111111"
    to_ := "2222222222222222222222222222222222222222", input_data := "0x"
    output := "", value := 0, nonce := 0, gas_limit := 60000, gasused := 21000
    gasusedblock := 100, charged_gas_price := 500, logsBloom := some 5
    block := 7, block_hash := "b10c", trx_index := 0, logs := none
    itxs := [], errors := none }

def sampleReceiptB : RawReceipt :=
  { sampleReceiptA with hash := "0xbb02", gasusedblock := 250
                        logsBloom := none, trx_index := 1 }

def sampleDocA : ReceiptDoc := { timestamp := 1700000000, raw := sampleReceiptA }

def sampleDocB : ReceiptDoc := { timestamp := 1700000000, raw := sampleReceiptB }

/-- An internal call whose opcode f2 (CALLCODE) is absent from the
toOpname table. -/
def sampleItxF2 : InternalCall :=
  { callType := "f2", from_ := "1111111111111111111111111111111111111111"
    to_ := "2222222222222222222222222222222222222222", gas := "0a"
    gasUsed := "05", input := "", output := "", value := "0"
    subtraces := 0, traceAddress := [0], type := "call" }

def sampleReceiptF2 : RawReceipt := { sampleReceiptA with itxs := [sampleItxF2] }

/-- The call-type names makeTraces emits, projected for inspection. -/
def tracesCallTypes : TracesResult → List String
  | .filterList l => l.map (fun t => t.action.callType)
  | .adHocEnvelope _ _ l _ => l.map (fun t => t.action.callType)

/-- A log whose single topic ab is a strict substring of the filter topic
abc used in the topic-direction counterexample. -/
def cexLog : RawLog := { address := "aa", data := "", topics := ["ab"] }

def chainIdReq : RpcRequest := { jsonrpc := some "2.0", id := some 1, method := "eth_chainId" }

def bogusReq : RpcRequest := { id := some 2, method := "bogus" }

/-- A request whose version member is present but empty: JS truthiness
normalizes it like an absent one. -/
def emptyVersionReq : RpcRequest :=
  { jsonrpc := some "", id := some 1, method := "eth_chainId" }

/-- A request with an explicit mismatched version. -/
def badVersionReq : RpcRequest :=
  { jsonrpc := some "1.0", id := some 7, method := "eth_chainId" }

/-- A filter combining blockHash with fromBlock, which must be rejected. -/
def badGetLogsParams : GetLogsParams :=
  { blockHash := some "0xabc", fromBlock := some "0x1" }

def cexGetLogsRawC1 : RawReceipt :=
  { sampleReceiptA with block := 1, block_hash := "b1", hash := "0xt1", trx_index := 0
                        logs := some [{ address := "aaaaaaaaaaaaaaaaaaaaaaaaaaaaaaaaaaaaaaaa"
                                        data := "00", topics := ["01"] }] }

def cexGetLogsRawC2 : RawReceipt :=
  { sampleReceiptA with block := 2, block_hash := "b2", hash := "0xt2", trx_index := 0
                        logs := some [{ address := "bbbbbbbbbbbbbbbbbbbbbbbbbbbbbbbbbbbbbbbb"
                                        data := "01", topics := ["02"] }] }

def cexGetLogsDoc1 : ActionDoc := { global_sequence := 10, raw := some cexGetLogsRawC1 }

def cexGetLogsDoc2 : ActionDoc := { global_sequence := 20, raw := some cexGetLogsRawC2 }

def cexGetLogsPlan : LogsQueryPlan :=
  { blockHash := none, fromBlock := some 1, toBlock := some 2 }

/-! ## Helper lemmas -/

theorem doRpcMethod_not_found (methods : List (String × Handler)) (req : RpcRequest)
    (hv : normalizedVersion req.jsonrpc = "2.0")
    (hnm : req.method ∉ methods.map Prod.fst) :
    doRpcMethod methods req =
      { jsonrpc := "2.0", id := req.id, result := none
        error := some { code := -32601
                        message := some ("Invalid method: " ++ req.method)
                        data := none } } := by
  have hfind : methods.find? (fun kv => kv.1 = req.method) = none := by
    rw [List.find?_eq_none]
    intro kv hkv
    simp only [decide_eq_true_eq]
    intro h
    exact hnm (List.mem_map.mpr ⟨kv, hkv, h⟩)
  unfold doRpcMethod
  rw [hv, hfind]
  simp [jsonRPC2Error]

theorem doRpcMethod_invalid_version (methods : List (String × Handler)) (req : RpcRequest)
    (v : String) (hv : req.jsonrpc = some v) (h2 : v ≠ "2.0") (h3 : v ≠ "") :
    doRpcMethod methods req =
      { jsonrpc := "2.0", id := req.id, result := none
        error := some { code := -32600, message := some "Invalid JSON RPC"
                        data := none } } := by
  unfold doRpcMethod normalizedVersion
  rw [hv]
  simp only [h3, if_false]
  rw [if_pos h2]
  simp [jsonRPC2Error]

theorem doRpcMethod_norm_version (methods : List (String × Handler)) (req : RpcRequest)
    (h : req.jsonrpc = none ∨ req.jsonrpc = some "") :
    doRpcMethod methods req = doRpcMethod methods { req with jsonrpc := some "2.0" } := by
  unfold doRpcMethod normalizedVersion
  rcases h with h | h <;> rw [h] <;> rfl

/-! ## Claim theorems -/

/-- Claim C9 (amended): a request whose version member is absent, or
present but empty (the JS falsy check of the source), is treated as
version 2.0 and dispatched normally; a present, non-empty version other
than 2.0 yields the InvalidRequest envelope with code -32600 independent
of the registry, so no handler runs; and an unknown method name yields
the MethodNotFound envelope with code -32601. -/
theorem doRpcMethod_version_spec (methods : List (String × Handler)) (req : RpcRequest) :
    ((req.jsonrpc = none ∨ req.jsonrpc = some "") →
      doRpcMethod methods req = doRpcMethod methods { req with jsonrpc := some "2.0" }) ∧
    (∀ v, req.jsonrpc = some v → v ≠ "2.0" → v ≠ "" →
      doRpcMethod methods req =
        { jsonrpc := "2.0", id := req.id, result := none
          error := some { code := -32600, message := some "Invalid JSON RPC"
                          data := none } }) ∧
    (normalizedVersion req.jsonrpc = "2.0" → req.method ∉ methods.map Prod.fst →
      doRpcMethod methods req =
        { jsonrpc := "2.0", id := req.id, result := none
          error := some { code := -32601
                          message := some ("Invalid method: " ++ req.method)
                          data := none } }) :=
  ⟨fun h => doRpcMethod_norm_version methods req h,
   fun v hv h2 h3 => doRpcMethod_invalid_version methods req v hv h2 h3,
   fun hv hnm => doRpcMethod_not_found methods req hv hnm⟩

/-- Claim C9 witness: the amended theorem applied to a concrete request
with the explicit mismatched version 1.0. -/
theorem doRpcMethod_version_spec_witness :
    doRpcMethod (telosPureMethods 40) badVersionReq =
      { jsonrpc := "2.0", id := some 7, result := none
        error := some { code := -32600, message := some "Invalid JSON RPC"
                        data := none } } :=
  (doRpcMethod_version_spec (telosPureMethods 40) badVersionReq).2.1 "1.0" rfl
    (by decide) (by decide)

/-- Claim C9 counterexample: a request whose version member is present
but not 2.0 (the empty string) is dispatched normally and answered with
a success envelope, not with the InvalidRequest error the claim
demands. -/
theorem doRpcMethod_version_counterexample :
    emptyVersionReq.jsonrpc = some "" ∧ ("" : String) ≠ "2.0" ∧
    doRpcMethod (telosPureMethods 40) emptyVersionReq =
      { jsonrpc := "2.0", id := some 1, result := some (.str "0x28"), error := none } := by
  refine ⟨rfl, by decide, by decide⟩

/-- Claim C2: an array payload yields exactly one envelope per request in
the original order (entry i of the response is the dispatch of entry i of
the batch); an empty array yields no response; and a request whose method
is unknown produces its own MethodNotFound error envelope while every
sibling entry still equals its own independent dispatch. -/
theorem doRpcPayload_batch_spec (methods : List (String × Handler))
    (reqs : List RpcRequest) (hne : reqs ≠ []) :
    doRpcPayload methods (.batch []) = none ∧
    ∃ resps : List RpcEnvelope,
      doRpcPayload methods (.batch reqs) = some (.batch resps) ∧
      resps.length = reqs.length ∧
      (∀ (i : Nat) (req : RpcRequest), reqs[i]? = some req →
        resps[i]? = some (doRpcMethod methods req)) ∧
      (∀ (i : Nat) (req : RpcRequest), reqs[i]? = some req →
        req.method ∉ methods.map Prod.fst →
        normalizedVersion req.jsonrpc = "2.0" →
        ∃ resp : RpcEnvelope, resps[i]? = some resp ∧ resp.result = none ∧
          resp.error = some { code := -32601
                              message := some ("Invalid method: " ++ req.method)
                              data := none }) := by
  refine ⟨rfl, reqs.map (doRpcMethod methods), ?_, by simp, ?_, ?_⟩
  · simp only [doRpcPayload]
    rw [if_neg (fun h => hne (List.length_eq_zero.mp h))]
  · intro i req h
    simp [List.getElem?_map, h]
  · intro i req h hnm hv
    refine ⟨doRpcMethod methods req, by simp [List.getElem?_map, h], ?_, ?_⟩ <;>
      rw [doRpcMethod_not_found methods req hv hnm]

/-- Claim C2 witness: the theorem applied to the concrete two-entry batch
of the spec example, and the resulting envelopes evaluated: a success
result for id 1 and a MethodNotFound error for id 2, in order. -/
theorem doRpcPayload_batch_spec_witness :
    doRpcPayload (telosPureMethods 40) (.batch [chainIdReq, bogusReq]) =
      some (.batch
        [ { jsonrpc := "2.0", id := some 1, result := some (.str "0x28"), error := none }
        , { jsonrpc := "2.0", id := some 2, result := none
            error := some { code := -32601, message := some "Invalid method: bogus"
                            data := none } } ]) := by
  have h := doRpcPayload_batch_spec (telosPureMethods 40) [chainIdReq, bogusReq]
    (List.cons_ne_nil _ _)
  decide

/-- Claim C10: the trace_block handler always returns the empty list: the
per-receipt traces are combined with a non-mutating concat whose result is
discarded, so the accumulator never grows, whatever the receipts are. -/
theorem trace_block_returns_empty (keccak : String → String)
    (receipts : List RawReceipt) :
    trace_blockHandler keccak receipts = [] := by
  unfold trace_blockHandler
  generalize receipts.mergeSort (fun a b => a.trx_index ≤ b.trx_index) = l
  induction l with
  | nil => rfl
  | cons r t ih => simpa only [List.foldl_cons] using ih

/-- Claim C8 (code bug evaluation): an internal call whose opcode is not
in the toOpname table is emitted with call-type name unkown, the
misspelled literal of the source, not the unknown the claim and spec
state; the initial trace is still the type-call trace as claimed. -/
theorem makeTraces_unrecognized_opcode :
    toOpname "f2" = "unkown" ∧
    tracesCallTypes (makeTraces keccak0 sampleReceiptF2 false) = ["call", "unkown"] ∧
    "unkown" ≠ "unknown" := by
  refine ⟨rfl, by decide, by decide⟩

/-- Claim C6: whenever the eth_getLogs filter carries a truthy blockHash
together with a truthy fromBlock or toBlock, the query-preparation step
fails with the explicit error, before any query is issued. -/
theorem ethGetLogs_blockHash_range_error (currentIndexed : Nat)
    (params : GetLogsParams) (hb : truthyStr params.blockHash = true)
    (hr : truthyStr params.fromBlock = true ∨ truthyStr params.toBlock = true) :
    ethGetLogsPrepare currentIndexed params =
      .error "fromBlock/toBlock are not allowed with blockHash query" := by
  unfold ethGetLogsPrepare
  rw [hb]
  rcases hr with h | h <;> simp [h]

/-- Claim C6 witness: the theorem applied to a concrete filter carrying
both blockHash and fromBlock. -/
theorem ethGetLogs_blockHash_range_error_witness :
    ethGetLogsPrepare 0 badGetLogsParams =
      .error "fromBlock/toBlock are not allowed with blockHash query" :=
  ethGetLogs_blockHash_range_error 0 badGetLogsParams (by decide) (Or.inl (by decide))

/-- Claim C4: a string-revert payload shorter than 138 hex characters
decodes to the empty reason; otherwise the first 138 characters are
dropped and each remaining pair of hex digits becomes one character code,
so the crafted ABI encoding of the text execution failed round-trips
exactly. -/
theorem parseRevertReason_spec (s : String) (h : s.length < 138) :
    parseRevertReason s = "" ∧
    parseRevertReason revertExecutionFailed = "execution failed" := by
  refine ⟨?_, by decide⟩
  unfold parseRevertReason
  rw [if_pos h]

/-- Claim C4 witness: the theorem applied to the empty input. -/
theorem parseRevertReason_spec_witness :
    ("" : String).length < 138 ∧
    (parseRevertReason "" = "" ∧
      parseRevertReason revertExecutionFailed = "execution failed") :=
  ⟨by decide, parseRevertReason_spec "" (by decide)⟩

/-- Claim C5: panic decoding depends only on the last two characters of
the payload; a payload whose trailing byte is 11 maps to the arithmetic
underflow or overflow message; any trailing byte outside the eight known
codes maps to the default message; and the function is total by
construction. -/
theorem parsePanicReason_spec (s t : String) (hlast : sliceLast2 s = sliceLast2 t) :
    parsePanicReason s = parsePanicReason t ∧
    (sliceLast2 s = "11" →
      parsePanicReason s =
        "If an arithmetic operation results in underflow or overflow outside of an unchecked \x7b ... \x7d block.") ∧
    (sliceLast2 s ∉ panicCodes → parsePanicReason s = "Default panic message") := by
  refine ⟨?_, ?_, ?_⟩
  · unfold parsePanicReason
    rw [hlast]
  · intro h
    unfold parsePanicReason
    rw [h]
    decide
  · intro h
    simp only [panicCodes, List.mem_cons, List.not_mem_nil, or_false, not_or] at h
    obtain ⟨h1, h2, h3, h4, h5, h6, h7, h8⟩ := h
    unfold parsePanicReason panicSwitch
    rw [if_neg h1, if_neg h2, if_neg h3, if_neg h4, if_neg h5, if_neg h6,
      if_neg h7, if_neg h8]

/-- Claim C5 witness: the theorem applied to two concrete payloads sharing
the unrecognized trailing byte ff. -/
theorem parsePanicReason_spec_witness :
    sliceLast2 "abcff" = sliceLast2 "ff" ∧
    (parsePanicReason "abcff" = parsePanicReason "ff" ∧
      (sliceLast2 "abcff" = "11" →
        parsePanicReason "abcff" =
          "If an arithmetic operation results in underflow or overflow outside of an unchecked \x7b ... \x7d block.") ∧
      (sliceLast2 "abcff" ∉ panicCodes →
        parsePanicReason "abcff" = "Default panic message")) :=
  ⟨by decide, parsePanicReason_spec "abcff" "ff" (by decide)⟩

theorem reconStep_gasUsedBlock (keccak : String → String)
    (vrs : ReceiptDoc → String × String × String) (full : Bool)
    (st : ReconState) (d : ReceiptDoc) :
    (reconStep keccak vrs full st d).gasUsedBlock =
      max st.gasUsedBlock d.raw.gasusedblock := by
  simp only [reconStep]
  split
  · next h => exact (Nat.max_eq_right (Nat.le_of_lt h)).symm
  · next h => exact (Nat.max_eq_left (by omega)).symm

theorem reconStep_bloom (keccak : String → String)
    (vrs : ReceiptDoc → String × String × String) (full : Bool)
    (st : ReconState) (d : ReceiptDoc) :
    (reconStep keccak vrs full st d).bloom =
      match d.raw.logsBloom with
      | some b => Nat.lor st.bloom b
      | none => st.bloom := rfl

theorem recon_fold_gas (keccak : String → String)
    (vrs : ReceiptDoc → String × String × String) (full : Bool) :
    ∀ (l : List ReceiptDoc) (st : ReconState),
      (l.foldl (reconStep keccak vrs full) st).gasUsedBlock =
        (l.map (fun d => d.raw.gasusedblock)).foldl max st.gasUsedBlock := by
  intro l
  induction l with
  | nil => intro st; rfl
  | cons d t ih =>
    intro st
    simp only [List.foldl_cons, List.map_cons]
    rw [ih, reconStep_gasUsedBlock]

theorem recon_fold_bloom (keccak : String → String)
    (vrs : ReceiptDoc → String × String × String) (full : Bool) :
    ∀ (l : List ReceiptDoc) (st : ReconState),
      (l.foldl (reconStep keccak vrs full) st).bloom =
        (l.filterMap (fun d => d.raw.logsBloom)).foldl Nat.lor st.bloom := by
  intro l
  induction l with
  | nil => intro st; rfl
  | cons d t ih =>
    intro st
    simp only [List.foldl_cons, List.filterMap_cons]
    cases h : d.raw.logsBloom with
    | none =>
      rw [ih]
      congr 1
      rw [reconStep_bloom, h]
    | some b =>
      simp only [List.foldl_cons]
      rw [ih]
      congr 1
      rw [reconStep_bloom, h]

theorem foldl_max_bounds : ∀ (l : List Nat) (a : Nat),
    a ≤ l.foldl max a ∧ ∀ x ∈ l, x ≤ l.foldl max a := by
  intro l
  induction l with
  | nil => intro a; exact ⟨Nat.le_refl a, by intro x hx; cases hx⟩
  | cons y t ih =>
    intro a
    refine ⟨?_, ?_⟩
    · exact Nat.le_trans (Nat.le_max_left a y) (ih (max a y)).1
    · intro x hx
      rcases List.mem_cons.mp hx with rfl | hx

      · exact Nat.le_trans (Nat.le_max_right a x) (ih (max a x)).1
      · exact (ih (max a y)).2 x hx

theorem foldl_max_mem : ∀ (l : List Nat) (a : Nat),
    l.foldl max a = a ∨ l.foldl max a ∈ l := by
  intro l
  induction l with
  | nil => intro a; exact Or.inl rfl
  | cons y t ih =>
    intro a
    simp only [List.foldl_cons]
    rcases ih (max a y) with h | h
    · rcases max_choice a y with hm | hm
      · exact Or.inl (h.trans hm)
      · exact Or.inr (List.mem_cons.mpr (Or.inl (h.trans hm)))
    · exact Or.inr (List.mem_cons.mpr (Or.inr h))

/-- Claim C1: for a non-empty receipt list, the reconstructed block
carries gasUsed equal to the encoded maximum of the per-receipt
cumulative gasusedblock field (an attained upper bound, not a sum), and
a logs bloom equal to the bitwise OR of the blooms of exactly those
receipts that carry one. -/
theorem reconstructBlock_gas_bloom (keccak : String → String)
    (vrs : ReceiptDoc → String × String × String)
    (receipts : List ReceiptDoc) (full : Bool) (hne : receipts ≠ []) :
    ∃ m : Nat,
      (reconstructBlockFromReceipts keccak vrs receipts full).gasUsed = numToHex m ∧
      m ∈ receipts.map (fun d => d.raw.gasusedblock) ∧
      (∀ d ∈ receipts, d.raw.gasusedblock ≤ m) ∧
      (reconstructBlockFromReceipts keccak vrs receipts full).logsBloom =
        (receipts.filterMap (fun d => d.raw.logsBloom)).foldl Nat.lor 0 := by
  refine ⟨(receipts.map (fun d => d.raw.gasusedblock)).foldl max 0, ?_, ?_, ?_, ?_⟩
  · show numToHex (receipts.foldl (reconStep keccak vrs full) {}).gasUsedBlock = _
    rw [recon_fold_gas]
  · rcases foldl_max_mem (receipts.map (fun d => d.raw.gasusedblock)) 0 with h | h
    · obtain ⟨d, t, rfl⟩ := List.exists_cons_of_ne_nil hne
      have hmem : d.raw.gasusedblock ∈
          ((d :: t).map (fun d => d.raw.gasusedblock)) :=
        List.mem_map_of_mem _ (List.mem_cons_self d t)
      have hle := (foldl_max_bounds _ 0).2 _ hmem
      rw [h] at hle ⊢
      have : d.raw.gasusedblock = 0 := Nat.le_zero.mp hle
      rw [← this]
      exact hmem
    · exact h
  · intro d hd
    exact (foldl_max_bounds _ 0).2 _ (List.mem_map_of_mem _ hd)
  · show (receipts.foldl (reconStep keccak vrs full) {}).bloom = _
    rw [recon_fold_bloom]

/-- Claim C1 witness: the theorem applied to a concrete two-receipt
block, and the aggregates evaluated: the gas is the larger cumulative
field, the bloom the OR of the single present bloom. -/
theorem reconstructBlock_gas_bloom_witness :
    (reconstructBlockFromReceipts keccak0 vrs0 [sampleDocA, sampleDocB] false).gasUsed
        = "0xfa" ∧
    (reconstructBlockFromReceipts keccak0 vrs0 [sampleDocA, sampleDocB] false).logsBloom
        = 5 := by
  have h := reconstructBlock_gas_bloom keccak0 vrs0 [sampleDocA, sampleDocB] false
    (List.cons_ne_nil _ _)
  exact ⟨by decide, by decide⟩

/-- Claim C3 (amended): with a positional topics filter, a null position
matches any log topic, and a non-null filter topic at position i matches
iff, after stripping the 0x head, lower-casing and stripping leading
zero-byte pairs on both sides, the LOG topic at position i is contained
within the FILTER topic or the two are exactly equal (a position beyond
the log topic list compares against the JS text undefined and fails);
the log matches iff every filter position matches. -/
theorem logFilterMatch_topics_spec (log : RawLog) (tf : List (Option String)) :
    logFilterMatch log none (some tf) = true ↔
      ∀ p ∈ tf.enum,
        match p with
        | (_, none) => True
        | (i, some t) =>
          strIncludes (removeZeroHexStr t true)
              ((removeZeroHexStrList log.topics true).getD i "undefined") = true ∨
          (removeZeroHexStrList log.topics true).getD i "undefined" =
            removeZeroHexStr t true := by
  have h1 : logFilterMatch log none (some tf) = hasTopics log.topics tf := by
    simp [logFilterMatch, addrFilterTruthy]
  rw [h1]
  unfold hasTopics
  simp only [List.all_map, List.enum_map, List.all_eq_true, Function.comp,
    List.forall_mem_map]
  refine forall_congr' fun p => imp_congr_right fun hp => ?_
  rcases p with ⟨i, o⟩
  cases o with
  | none => simp [Prod.map]
  | some t => simp [Prod.map, Bool.or_eq_true, beq_iff_eq]

/-- Claim C3 counterexample: the log topic ab is a strict substring of
the filter topic abc, so the containment the claim states (filter within
log) fails and the two are not equal, yet the code accepts the log: the
inclusion test of the source runs in the opposite direction. -/
theorem logFilterMatch_topics_counterexample :
    logFilterMatch cexLog none (some [some "abc"]) = true ∧
    claimTopicsMatch cexLog.topics [some "abc"] = false := by
  refine ⟨by decide, by decide⟩

theorem range'_append_one (s m n : Nat) :
    List.range' s m ++ List.range' (s + m) n = List.range' s (m + n) := by
  have h := List.range'_append s m n 1
  rw [Nat.one_mul] at h
  rw [h, Nat.add_comm n m]

theorem pairwise_le_of_const (l : List Nat) (k : Nat) (h : ∀ x ∈ l, x = k) :
    l.Pairwise (· ≤ ·) := by
  induction l with
  | nil => exact List.Pairwise.nil
  | cons a t ih =>
    refine List.pairwise_cons.mpr ⟨?_, ?_⟩
    · intro b hb
      rw [h a (List.mem_cons_self a t), h b (List.mem_cons.mpr (Or.inr hb))]
    · exact ih fun x hx => h x (List.mem_cons.mpr (Or.inr hx))

theorem getLogs_inner (keccak : String → String) (plan : LogsQueryPlan)
    (addressFilter : Option JsStrOrList)
    (topicsFilter : Option (List (Option String))) (raw : RawReceipt) (seq : Nat) :
    ∀ (logs : List RawLog) (res : List (Nat × EthLogObj)) (c : Nat),
      ∃ new : List (Nat × EthLogObj),
        logs.foldl
            (fun acc log =>
              if getLogsKeep plan addressFilter topicsFilter raw log then
                (acc.1 ++ [(seq, makeLogObject keccak raw log acc.2)], acc.2 + 1)
              else acc) (res, c)
          = (res ++ new, c + new.length) ∧
        (∀ p ∈ new, p.1 = seq) ∧
        new.map (fun p => p.2.logIndex) = (List.range' c new.length).map numToHex := by
  intro logs
  induction logs with
  | nil =>
    intro res c
    exact ⟨[], by simp, by simp, by simp⟩
  | cons lg t ih =>
    intro res c
    simp only [List.foldl_cons]
    by_cases hk : getLogsKeep plan addressFilter topicsFilter raw lg = true
    · rw [if_pos hk]
      obtain ⟨new, heq, hseq, hidx⟩ :=
        ih (res ++ [(seq, makeLogObject keccak raw lg c)]) (c + 1)
      refine ⟨(seq, makeLogObject keccak raw lg c) :: new, ?_, ?_, ?_⟩
      · rw [heq]
        simp only [List.append_assoc, List.singleton_append, List.length_cons,
          Prod.mk.injEq, true_and]
        omega
      · intro p hp
        rcases List.mem_cons.mp hp with rfl | hp
        · rfl
        · exact hseq p hp
      · simp only [List.map_cons, List.length_cons, List.range']
        rw [hidx]
        rfl
    · rw [if_neg hk]
      exact ih res c

theorem processDocLogs_spec (keccak : String → String) (plan : LogsQueryPlan)
    (addressFilter : Option JsStrOrList)
    (topicsFilter : Option (List (Option String))) (doc : ActionDoc)
    (res : List (Nat × EthLogObj)) (c : Nat) :
    ∃ new : List (Nat × EthLogObj),
      processDocLogs keccak plan addressFilter topicsFilter doc (res, c)
        = (res ++ new, c + new.length) ∧
      (∀ p ∈ new, p.1 = doc.global_sequence) ∧
      new.map (fun p => p.2.logIndex) = (List.range' c new.length).map numToHex := by
  rcases doc with ⟨seq, rawOpt⟩
  cases rawOpt with
  | none => exact ⟨[], by simp [processDocLogs], by simp, by simp⟩
  | some raw =>
    cases hl : raw.logs with
    | none =>
      refine ⟨[], ?_, by simp, by simp⟩
      simp [processDocLogs, hl]
    | some logs =>
      have h := getLogs_inner keccak plan addressFilter topicsFilter raw seq logs res c
      simpa [processDocLogs, hl] using h

theorem getLogs_outer_index (keccak : String → String) (plan : LogsQueryPlan)
    (addressFilter : Option JsStrOrList)
    (topicsFilter : Option (List (Option String))) :
    ∀ (hits : List ActionDoc) (res : List (Nat × EthLogObj)) (c : Nat),
      ∃ new : List (Nat × EthLogObj),
        hits.foldl
            (fun acc doc => processDocLogs keccak plan addressFilter topicsFilter doc acc)
            (res, c)
          = (res ++ new, c + new.length) ∧
        new.map (fun p => p.2.logIndex) = (List.range' c new.length).map numToHex := by
  intro hits
  induction hits with
  | nil =>
    intro res c
    exact ⟨[], by simp, by simp⟩
  | cons d t ih =>
    intro res c
    simp only [List.foldl_cons]
    obtain ⟨new1, heq1, -, hidx1⟩ :=
      processDocLogs_spec keccak plan addressFilter topicsFilter d res c
    rw [heq1]
    obtain ⟨new2, heq2, hidx2⟩ := ih (res ++ new1) (c + new1.length)
    rw [heq2]
    refine ⟨new1 ++ new2, ?_, ?_⟩
    · simp only [List.append_assoc, List.length_append, Prod.mk.injEq, true_and]
      omega
    · rw [List.map_append, hidx1, hidx2, ← List.map_append, range'_append_one]
      rw [List.length_append]

theorem getLogs_pairwise_aux (keccak : String → String) (plan : LogsQueryPlan)
    (addressFilter : Option JsStrOrList)
    (topicsFilter : Option (List (Option String))) :
    ∀ (hits : List ActionDoc) (res : List (Nat × EthLogObj)) (c : Nat),
      hits.Pairwise (fun a b => a.global_sequence ≤ b.global_sequence) →
      (res.map Prod.fst).Pairwise (· ≤ ·) →
      (∀ p ∈ res, ∀ d ∈ hits, p.1 ≤ d.global_sequence) →
      (((hits.foldl
          (fun acc doc => processDocLogs keccak plan addressFilter topicsFilter doc acc)
          (res, c)).1).map Prod.fst).Pairwise (· ≤ ·) := by
  intro hits
  induction hits with
  | nil =>
    intro res c _ hres _
    simpa using hres
  | cons d t ih =>
    intro res c hsorted hres hbound
    simp only [List.foldl_cons]
    obtain ⟨new, heq, hseq, -⟩ :=
      processDocLogs_spec keccak plan addressFilter topicsFilter d res c
    rw [heq]
    apply ih
    · exact (List.pairwise_cons.mp hsorted).2
    · rw [List.map_append]
      refine List.pairwise_append.mpr ⟨hres, ?_, ?_⟩
      · refine pairwise_le_of_const _ d.global_sequence ?_
        intro x hx
        obtain ⟨q, hq, rfl⟩ := List.mem_map.mp hx
        exact hseq q hq
      · intro a ha b hb
        obtain ⟨p, hp, rfl⟩ := List.mem_map.mp ha
        obtain ⟨q, hq, rfl⟩ := List.mem_map.mp hb
        rw [hseq q hq]
        exact hbound p hp d (List.mem_cons_self d t)
    · intro p hp d' hd'
      rcases List.mem_append.mp hp with hp | hp
      · exact hbound p hp d' (List.mem_cons.mpr (Or.inr hd'))
      · rw [hseq p hp]
        exact (List.pairwise_cons.mp hsorted).1 d' hd'

/-- Claim C7 (amended): when the search hits arrive sorted ascending by
the global sequence number (the sort order the handler requests from the
backend), the emitted logs are in ascending order of the global sequence
number of their originating events; and the logIndex values are assigned
in result order over the WHOLE result set, 0, 1, 2 and so on, not reset
per block. -/
theorem ethGetLogs_order_spec (keccak : String → String) (plan : LogsQueryPlan)
    (addressFilter : Option JsStrOrList)
    (topicsFilter : Option (List (Option String))) (hits : List ActionDoc)
    (hsorted : hits.Pairwise (fun a b => a.global_sequence ≤ b.global_sequence)) :
    (((ethGetLogsCore keccak plan addressFilter topicsFilter hits).1).map
        Prod.fst).Pairwise (· ≤ ·) ∧
    (ethGetLogsResults keccak plan addressFilter topicsFilter hits).map
        (fun lg => lg.logIndex)
      = (List.range
          (ethGetLogsResults keccak plan addressFilter topicsFilter hits).length).map
          numToHex := by
  constructor
  · exact getLogs_pairwise_aux keccak plan addressFilter topicsFilter hits [] 0
      hsorted (by simp) (by simp)
  · obtain ⟨new, heq, hidx⟩ :=
      getLogs_outer_index keccak plan addressFilter topicsFilter hits [] 0
    unfold ethGetLogsResults ethGetLogsCore
    rw [heq]
    simp only [List.nil_append, List.map_map, List.length_map, Function.comp]
    rw [List.range_eq_range']
    exact hidx

/-- Claim C7 witness: the amended theorem applied to a concrete sorted
two-document hit list, and the assigned indexes evaluated. -/
theorem ethGetLogs_order_spec_witness :
    (ethGetLogsResults keccak0 cexGetLogsPlan none none
        [cexGetLogsDoc1, cexGetLogsDoc2]).map (fun lg => lg.logIndex)
      = ["0x0", "0x1"] := by
  have h := ethGetLogs_order_spec keccak0 cexGetLogsPlan none none
    [cexGetLogsDoc1, cexGetLogsDoc2]
    (by simp [List.pairwise_cons, cexGetLogsDoc1, cexGetLogsDoc2])
  decide

/-- Claim C7 counterexample: two matching logs in two different blocks;
the second result is the first log of its block yet carries logIndex 0x1,
so the logIndex is not block-relative as the claim states: the counter
runs over the whole result set. -/
theorem ethGetLogs_blockRelative_counterexample :
    claimBlockRelativeIndexes
        (ethGetLogsResults keccak0 cexGetLogsPlan none none
          [cexGetLogsDoc1, cexGetLogsDoc2]) = false ∧
    (ethGetLogsResults keccak0 cexGetLogsPlan none none
        [cexGetLogsDoc1, cexGetLogsDoc2]).map
        (fun lg => (lg.blockNumber, lg.logIndex))
      = [("0x1", "0x0"), ("0x2", "0x1")] := by
  refine ⟨by decide, by decide⟩

end TelosEvm
